import Mathlib

/-!
Verification of the Sui object-model workshop examples.

The repository is sequential client glue around the Sui SDK: wallet setup
(`src/utils/wallet.rs`), coin lookup and a programmable-transaction pipeline
(`src/utils/transaction.rs`), and two example binaries
(`src/bin/input_objects.rs`, `src/bin/return_objects.rs`).

The embedding below models:
* a coin stream as the list of coins the network's paginated query yields,
  in stream order;
* every network / SDK call that can fail as an `Except` oracle supplied as
  an input to the embedded pipeline function (the value the call would
  return on this run);
* Rust `?`-propagation as explicit match cascades on those oracles;
* a Rust `panic` (`unwrap` / `expect` / failed `assert`) as a distinguished
  error constructor, kept apart from propagated errors;
* the number of faucet invocations performed along the executed path as an
  explicit counter returned next to the result.
-/

namespace Workshop

/-- Decidable equality of `Except` results, so concrete pipeline outcomes can
be settled by `decide`. -/
def Except.decEq {ε α : Type} [DecidableEq ε] [DecidableEq α] :
    (a b : Except ε α) → Decidable (a = b)
  | .ok x, .ok y =>
    if h : x = y then isTrue (congrArg Except.ok h)
    else isFalse (fun hh => h (Except.ok.inj hh))
  | .error x, .error y =>
    if h : x = y then isTrue (congrArg Except.error h)
    else isFalse (fun hh => h (Except.error.inj hh))
  | .ok _, .error _ => isFalse (fun hh => Except.noConfusion hh)
  | .error _, .ok _ => isFalse (fun hh => Except.noConfusion hh)

instance {ε α : Type} [DecidableEq ε] [DecidableEq α] : DecidableEq (Except ε α) :=
  Except.decEq

/-- Sui addresses, object ids, digests and signatures are opaque identifiers
for the purposes of the examples; modelled as naturals. -/
abbrev Addr := Nat

/-- The call `coin.object_ref()` yields `(ObjectID, SequenceNumber, ObjectDigest)`. -/
abbrev ObjRef := Nat × Nat × Nat

/-- A coin object as returned by the coin read API: id, version, digest and
a balance in MIST. -/
structure Coin where
  coin_object_id : Nat
  version : Nat
  digest : Nat
  balance : Nat
deriving DecidableEq

def Coin.object_ref (c : Coin) : ObjRef := (c.coin_object_id, c.version, c.digest)

/-- Function `fetch_coin` (src/utils/transaction.rs lines 20-34): the coin stream for
the sender and coin type `0x2::sui::SUI` is filtered by
`skip_while(|c| c.balance < 5_000_000)` and the first remaining element is
taken.  On a stream modelled as a list this is `dropWhile` then `head?`. -/
def fetch_coin (coins : List Coin) : Option Coin :=
  (coins.dropWhile (fun c => c.balance < 5000000)).head?

/-- Dropping a prefix that entirely satisfies the predicate. -/
theorem dropWhile_append_of_all {p : Coin → Bool} (pre l : List Coin)
    (h : ∀ x ∈ pre, p x = true) :
    (pre ++ l).dropWhile p = l.dropWhile p := by
  induction pre with
  | nil => rfl
  | cons a t ih =>
    have ha : p a = true := h a (by simp)
    simp only [List.cons_append, List.dropWhile_cons, ha, if_pos]
    exact ih (fun x hx => h x (by simp [hx]))

/-- A coin returned by `fetch_coin` always has balance at least 5_000_000. -/
theorem fetch_coin_qualifies (coins : List Coin) (c : Coin)
    (h : fetch_coin coins = some c) : 5000000 ≤ c.balance := by
  induction coins with
  | nil => simp [fetch_coin] at h
  | cons a t ih =>
    by_cases hb : a.balance < 5000000
    · exact ih (by simpa [fetch_coin, List.dropWhile_cons, hb] using h)
    · have hac : a = c := by simpa [fetch_coin, List.dropWhile_cons, hb] using h
      rw [← hac]
      omega

/-- If every coin of the stream is below the threshold, `fetch_coin`
returns `none`. -/
theorem fetch_coin_none_of_all_below (coins : List Coin)
    (h : ∀ x ∈ coins, x.balance < 5000000) : fetch_coin coins = none := by
  have : coins.dropWhile (fun c => c.balance < 5000000) = [] :=
    List.dropWhile_eq_nil_iff.mpr (by simpa using h)
  simp [fetch_coin, this]

/-- C1. For every coin stream, `fetch_coin` returns `some` of the first coin
in stream order whose balance is at least 5_000_000 MIST, and its result does
not depend on any coin beyond that one (so no later coin is inspected); when
the stream terminates before a qualifying coin appears, it returns `none` as
a normal (non-error) result. -/
theorem fetch_coin_first_match (pre : List Coin) (c : Coin)
    (hpre : ∀ x ∈ pre, x.balance < 5000000) :
    (5000000 ≤ c.balance → ∀ rest, fetch_coin (pre ++ c :: rest) = some c) ∧
    fetch_coin pre = none := by
  constructor
  · intro hc rest
    have hall : ∀ x ∈ pre, (fun c : Coin => decide (c.balance < 5000000)) x = true := by
      intro x hx
      exact decide_eq_true (hpre x hx)
    have hdrop := dropWhile_append_of_all pre (c :: rest) hall
    have hc' : ¬ c.balance < 5000000 := by omega
    simp [fetch_coin, hdrop, List.dropWhile_cons, hc']
  · exact fetch_coin_none_of_all_below pre hpre

/-- Witness for C1 at the spec's example stream
`[1_000_000, 2_000_000, 6_000_000]` (threshold 5_000_000): the coin with
balance 6_000_000 is returned, whatever comes after it. -/
theorem fetch_coin_first_match_witness :
    fetch_coin [⟨1, 0, 0, 1000000⟩, ⟨2, 0, 0, 2000000⟩, ⟨3, 0, 0, 6000000⟩,
      ⟨4, 0, 0, 9000000⟩] = some ⟨3, 0, 0, 6000000⟩ ∧
    fetch_coin [⟨1, 0, 0, 1000000⟩, ⟨2, 0, 0, 2000000⟩] = none := by
  have h := fetch_coin_first_match [⟨1, 0, 0, 1000000⟩, ⟨2, 0, 0, 2000000⟩]
    ⟨3, 0, 0, 6000000⟩ (by decide)
  exact ⟨h.1 (by decide) [⟨4, 0, 0, 9000000⟩], h.2⟩

/-- A transaction argument handle.  `Result n` is the handle returned when the
`n`-th command is appended; `Input n` when the `n`-th input is appended. -/
inductive Argument
  | GasCoin
  | Input (n : Nat)
  | Result (n : Nat)
deriving DecidableEq

/-- A pure value passed to `ptb.pure` in the examples: a `u64` amount or an
address. -/
inductive PureVal
  | u64 (n : Nat)
  | address (a : Addr)
deriving DecidableEq

/-- An object argument, as in `sui_sdk::types::transaction::ObjectArg`. -/
inductive ObjectArg
  | ImmOrOwnedObject (oref : ObjRef)
  | SharedObject (id : Nat) (initial_shared_version : Nat) (mutable : Bool)
deriving DecidableEq

/-- A transaction input, as in `sui_sdk::types::transaction::CallArg`. -/
inductive CallArg
  | Pure (v : PureVal)
  | Object (o : ObjectArg)
deriving DecidableEq

/-- The command variants the examples use, as in
`sui_sdk::types::transaction::Command`. -/
inductive Command
  | MoveCall (package : Nat) (module function : String)
      (type_arguments : List String) (arguments : List Argument)
  | TransferObjects (objects : List Argument) (address : Argument)
  | SplitCoins (coin : Argument) (amounts : List Argument)
  | MergeCoins (target : Argument) (sources : List Argument)
deriving DecidableEq

/-- All argument positions of a command. -/
def Command.args : Command → List Argument
  | .MoveCall _ _ _ _ arguments => arguments
  | .TransferObjects objects address => objects ++ [address]
  | .SplitCoins coin amounts => coin :: amounts
  | .MergeCoins target sources => target :: sources

/-- The finalized payload: an ordered input list and an ordered command
list. -/
structure ProgrammableTransaction where
  inputs : List CallArg
  commands : List Command
deriving DecidableEq

/-- Modelled from the spec: the `ProgrammableTransactionBuilder` lives in the
external SDK and its source is not part of this repository.  Per the spec it
"accumulates inputs (pure values or object references) and commands into an
ordered payload", each `input`/`pure` call returning an input handle and each
`command` call returning the handle of that command's result. -/
structure ProgrammableTransactionBuilder where
  inputs : List CallArg
  commands : List Command
deriving DecidableEq

namespace ProgrammableTransactionBuilder

def new : ProgrammableTransactionBuilder := ⟨[], []⟩

/-- Modelled from the spec: registering an input appends it and returns its
handle. -/
def input (b : ProgrammableTransactionBuilder) (arg : CallArg) :
    ProgrammableTransactionBuilder × Argument :=
  ({ b with inputs := b.inputs ++ [arg] }, .Input b.inputs.length)

/-- Modelled from the spec: `ptb.pure(v)` registers a pure input. -/
def pure (b : ProgrammableTransactionBuilder) (v : PureVal) :
    ProgrammableTransactionBuilder × Argument :=
  b.input (.Pure v)

/-- Modelled from the spec: appending a command returns the handle
`Result` of its (0-based) position. -/
def command (b : ProgrammableTransactionBuilder) (c : Command) :
    ProgrammableTransactionBuilder × Argument :=
  ({ b with commands := b.commands ++ [c] }, .Result b.commands.length)

/-- Modelled from the spec: finalizing freezes the input and command lists
into an immutable payload. -/
def finish (b : ProgrammableTransactionBuilder) : ProgrammableTransaction :=
  ⟨b.inputs, b.commands⟩

end ProgrammableTransactionBuilder

/-- A handle is available at a point where `n` commands have been appended:
a `Result i` handle has been returned by the builder exactly when `i < n`.
(`GasCoin` and input handles are always available.) -/
def Argument.availableAt (a : Argument) (n : Nat) : Bool :=
  match a with
  | .Result i => i < n
  | _ => true

/-- Relation `Builds cs b`: builder state `b` is reachable through the builder API
having appended exactly the commands `cs` in this order, every command using
only handles the API had already returned (the API returns `Result i` only
once command `i` exists, so this is the discipline the spec describes:
"commands may only refer to inputs/results already registered"). -/
inductive Builds : List Command → ProgrammableTransactionBuilder → Prop
  | new : Builds [] ProgrammableTransactionBuilder.new
  | input (cs : List Command) (b : ProgrammableTransactionBuilder) (arg : CallArg) :
      Builds cs b → Builds cs (b.input arg).1
  | command (cs : List Command) (b : ProgrammableTransactionBuilder) (c : Command) :
      Builds cs b → (∀ a ∈ c.args, a.availableAt b.commands.length = true) →
      Builds (cs ++ [c]) (b.command c).1

/-- The builder's command list is exactly the appended commands, in order. -/
theorem Builds.commands_eq {cs : List Command} {b : ProgrammableTransactionBuilder}
    (h : Builds cs b) : b.commands = cs := by
  induction h with
  | new => rfl
  | input cs b arg hb ih =>
    simpa [ProgrammableTransactionBuilder.input] using ih
  | command cs b c hb hok ih =>
    simp [ProgrammableTransactionBuilder.command, ih]

/-- C2. Every payload finalized by the builder lists exactly the `N` appended
commands in insertion order, and every `Result i` argument used by the command
at position `p` satisfies `i < p`: no forward or self references are
constructible through the API. -/
theorem ptb_finish_no_forward_references (cs : List Command)
    (b : ProgrammableTransactionBuilder) (h : Builds cs b) :
    b.finish.commands = cs ∧
    ∀ p, ∀ hp : p < cs.length, ∀ a ∈ (cs.get ⟨p, hp⟩).args, ∀ i,
      a = Argument.Result i → i < p := by
  refine ⟨by simpa [ProgrammableTransactionBuilder.finish] using h.commands_eq, ?_⟩
  induction h with
  | new => intro p hp; exact absurd hp (by simp)
  | input cs b arg hb ih => exact ih
  | command cs b c hb hok ih =>
    intro p hp a ha i hai
    rcases Nat.lt_or_ge p cs.length with hlt | hge
    · have hget : (cs ++ [c]).get ⟨p, hp⟩ = cs.get ⟨p, hlt⟩ := by
        simp [List.get_eq_getElem, List.getElem_append_left hlt]
      exact ih p hlt a (hget ▸ ha) i hai
    · have hplen : p = cs.length := by
        have := hp
        simp only [List.length_append, List.length_singleton] at this
        omega
      have hget : (cs ++ [c]).get ⟨p, hp⟩ = c := by
        subst hplen
        simp [List.get_eq_getElem]
      have hav := hok a (hget ▸ ha)
      rw [hai, hb.commands_eq] at hav
      have : i < cs.length := by
        simpa [Argument.availableAt] using hav
      omega

/-- The package id called by `return_objects.rs`. -/
def RETURN_PKG_ID : Nat :=
  0xadfb946c8c887446d284dae80ac8501c02ec9b9157babb96ca884773bfbb7771

/-- The builder state constructed by `return_objects.rs` main, lines 52-73:
a `banana::new` move call, a pure recipient input, then a transfer of the
move call's result to that recipient. -/
def return_objects_ptb (recipient : Addr) : ProgrammableTransactionBuilder :=
  let ptb := ProgrammableTransactionBuilder.new
  let (ptb, banana_object) :=
    ptb.command (Command.MoveCall RETURN_PKG_ID "banana" "new" [] [])
  let (ptb, argument_address) := ptb.pure (PureVal.address recipient)
  (ptb.command (Command.TransferObjects [banana_object] argument_address)).1

/-- Witness for C2 at the concrete build script of `return_objects.rs`:
the finalized command list is the two appended commands in order, and the
transfer's `Result 0` reference points strictly before position 1. -/
theorem ptb_finish_no_forward_references_witness :
    (return_objects_ptb 7).finish.commands =
      [Command.MoveCall RETURN_PKG_ID "banana" "new" [] [],
       Command.TransferObjects [Argument.Result 0] (Argument.Input 0)] ∧
    0 < 1 := by
  have hb : Builds
      [Command.MoveCall RETURN_PKG_ID "banana" "new" [] [],
       Command.TransferObjects [Argument.Result 0] (Argument.Input 0)]
      (return_objects_ptb 7) := by
    refine Builds.command _ _ _ (Builds.input _ _ _ (Builds.command _ _ _ Builds.new ?_)) ?_
    · intro a ha
      simp [Command.args] at ha
    · intro a ha
      fin_cases ha <;> decide
  have h := ptb_finish_no_forward_references _ _ hb
  exact ⟨h.1, h.2 1 (by decide) (Argument.Result 0) (by simp [Command.args]) 0 rfl⟩

/-- Build-time errors of the modelled builder state machine. -/
inductive BuildErr
  | alreadyFinalized
deriving DecidableEq

/-- Modelled from the spec: the builder's state machine
`{Empty} → (add, repeatable) → {Building} → (finish) → {Finalized, terminal}`.
In the Rust SDK `finish(self)` consumes the builder by move, so the terminal
state is enforced by the type system; here it is an explicit state with every
operation rejected after finalization. -/
inductive BuilderState
  | Building (b : ProgrammableTransactionBuilder)
  | Finalized (pt : ProgrammableTransaction)

/-- Modelled from the spec: finalizing freezes the payload; a second finalize
is rejected. -/
def BuilderState.finishS :
    BuilderState → Except BuildErr (ProgrammableTransaction × BuilderState)
  | .Building b => .ok (b.finish, .Finalized b.finish)
  | .Finalized _ => .error .alreadyFinalized

/-- Modelled from the spec: adding an input is only valid before
finalization. -/
def BuilderState.inputS (arg : CallArg) :
    BuilderState → Except BuildErr (BuilderState × Argument)
  | .Building b => .ok (.Building (b.input arg).1, (b.input arg).2)
  | .Finalized _ => .error .alreadyFinalized

/-- Modelled from the spec: adding a command is only valid before
finalization. -/
def BuilderState.commandS (c : Command) :
    BuilderState → Except BuildErr (BuilderState × Argument)
  | .Building b => .ok (.Building (b.command c).1, (b.command c).2)
  | .Finalized _ => .error .alreadyFinalized

/-- C6. Once `finish` succeeds on a builder, the resulting state is terminal:
finalizing again, adding an input, or adding a command is rejected. -/
theorem finalized_is_terminal (b : ProgrammableTransactionBuilder)
    (pt : ProgrammableTransaction) (s : BuilderState)
    (h : (BuilderState.Building b).finishS = .ok (pt, s)) :
    s.finishS = .error .alreadyFinalized ∧
    (∀ arg, s.inputS arg = .error .alreadyFinalized) ∧
    (∀ c, s.commandS c = .error .alreadyFinalized) := by
  have h2 : (b.finish, BuilderState.Finalized b.finish) = (pt, s) := Except.ok.inj h
  have hs : s = BuilderState.Finalized b.finish := (congrArg Prod.snd h2).symm
  subst hs
  exact ⟨rfl, fun _ => rfl, fun _ => rfl⟩

/-- Witness for C6 on a concrete builder: finalizing the empty builder once
succeeds, and every further operation on the finalized state is rejected. -/
theorem finalized_is_terminal_witness :
    (BuilderState.Finalized ProgrammableTransactionBuilder.new.finish).finishS
      = .error .alreadyFinalized ∧
    (∀ arg, (BuilderState.Finalized ProgrammableTransactionBuilder.new.finish).inputS arg
      = .error .alreadyFinalized) ∧
    (∀ c, (BuilderState.Finalized ProgrammableTransactionBuilder.new.finish).commandS c
      = .error .alreadyFinalized) :=
  finalized_is_terminal ProgrammableTransactionBuilder.new
    ProgrammableTransactionBuilder.new.finish
    (BuilderState.Finalized ProgrammableTransactionBuilder.new.finish) rfl

/-- An error of an embedded pipeline over an abstract error type `ε` of the
external calls (Rust `anyhow::Error`):
* `net e` — an error value `e` returned by a network / SDK call and
  propagated by `?`;
* `localErr msg` — an error created locally with `anyhow!(msg)`;
* `panicMsg msg` — a Rust panic (`unwrap` / `expect` / failed `assert!`). -/
inductive PipeErr (ε : Type)
  | net (e : ε)
  | localErr (msg : String)
  | panicMsg (msg : String)
deriving DecidableEq

/-- Map the error of an `Except` (Rust `?` through an error conversion). -/
def emap {ε ε2 α : Type} (f : ε → ε2) : Except ε α → Except ε2 α
  | .ok a => .ok a
  | .error e => .error (f e)

/-- Constructor `TransactionData::new_programmable(sender, gas_payment, pt, gas_budget,
gas_price)`. -/
structure TransactionData where
  sender : Addr
  gas_payment : List ObjRef
  pt : ProgrammableTransaction
  gas_budget : Nat
  gas_price : Nat
deriving DecidableEq

def TransactionData.new_programmable (sender : Addr) (gas_payment : List ObjRef)
    (pt : ProgrammableTransaction) (gas_budget : Nat) (gas_price : Nat) :
    TransactionData :=
  ⟨sender, gas_payment, pt, gas_budget, gas_price⟩

/-- The transaction data built by `split_coin_digest`
(src/utils/transaction.rs lines 55-89): a split of 1000 MIST off the gas
coin followed by merging the result back, with `max_gas_budget = 5_000_000`. -/
def split_coin_build (sender : Addr) (coin : Coin) (gas_price : Nat) :
    TransactionData :=
  let max_gas_budget := 5000000
  let ptb := ProgrammableTransactionBuilder.new
  let (ptb, split_coin_amount) := ptb.pure (PureVal.u64 1000)
  let (ptb, _) := ptb.command (Command.SplitCoins Argument.GasCoin [split_coin_amount])
  let (ptb, _) := ptb.command (Command.MergeCoins Argument.GasCoin [Argument.Result 0])
  let builder := ptb.finish
  TransactionData.new_programmable sender [coin.object_ref] builder
    max_gas_budget gas_price

/-- Package and counter object ids of `input_objects.rs`. -/
def PKG_ID : Nat :=
  0xad3225e7d4827f81dc0686177067e1b458e8468ceabcff3456888ce3d806eb8c

def COUNTER_OBJ_ID : Nat :=
  0x1feb03541d20064d1876c26cfa44514f2e029c8201a2fe12a60589842b9d391d

/-- Object ownership as in `sui_types::object::Owner`. -/
inductive Owner
  | AddressOwner (a : Addr)
  | ObjectOwner (a : Addr)
  | Shared (initial_shared_version : Nat)
  | Immutable
deriving DecidableEq

/-- The part of a `SuiObjectData` the example reads. -/
structure SuiObjectData where
  owner : Option Owner
deriving DecidableEq

/-- A `SuiObjectResponse` from `get_object_with_options`. -/
structure SuiObjectResponse where
  data : Option SuiObjectData
deriving DecidableEq

/-- The initial-shared-version extraction of `input_objects.rs` main,
lines 66-79: nested `if let` on `data` and `owner`, accepting only
`Owner::Shared` and otherwise returning the corresponding `anyhow!` error. -/
def extract_initial_shared_version (resp : SuiObjectResponse) :
    Except String Nat :=
  match resp.data with
  | some data =>
    match data.owner with
    | some owner =>
      match owner with
      | .Shared initial_shared_version => .ok initial_shared_version
      | _ => .error "Object is not shared"
    | none => .error "Object owner information not found"
  | none => .error "Object data not found"

/-- The transaction data built by `input_objects.rs` main, lines 83-116:
a shared-object input carrying the extracted `initial_shared_version`, one
`counter::increment` move call on it, `gas_budget = 10_000_000`. -/
def input_objects_build (sender : Addr) (coin : Coin)
    (initial_shared_version : Nat) (gas_price : Nat) : TransactionData :=
  let ptb := ProgrammableTransactionBuilder.new
  let input_value := ObjectArg.SharedObject COUNTER_OBJ_ID initial_shared_version true
  let input_argument := CallArg.Object input_value
  let (ptb, counter_object) := ptb.input input_argument
  let (ptb, _) :=
    ptb.command (Command.MoveCall PKG_ID "counter" "increment" [] [counter_object])
  let builder := ptb.finish
  let gas_budget := 10000000
  TransactionData.new_programmable sender [coin.object_ref] builder
    gas_budget gas_price

/-- The transaction data built by `return_objects.rs` main, lines 52-87:
the two-command payload of `return_objects_ptb` with
`gas_budget = 10_000_000`. -/
def return_objects_build (sender recipient : Addr) (coin : Coin)
    (gas_price : Nat) : TransactionData :=
  let builder := (return_objects_ptb recipient).finish
  let gas_budget := 10000000
  TransactionData.new_programmable sender [coin.object_ref] builder
    gas_budget gas_price

/-- The client configuration field the examples touch. -/
structure SuiClientConfig where
  active_address : Option Addr
deriving DecidableEq

/-- The address-list core of `retrieve_wallet` (src/utils/wallet.rs lines
42-58), with the keystore modelled from the spec as the ordered list of its
addresses (the `FileBasedKeystore` itself is SDK code not in this
repository; the spec says it "persists at least two generated key
identities" and "exposes first-address and all-addresses queries").
`f1`/`f2` are the fresh addresses `generate_and_add_new_key` would mint:
if the keystore is empty a first key is generated and made the default
active address, and while fewer than two addresses exist a further key is
generated.  Returns the final keystore address list and the default active
address. -/
def retrieve_wallet_core (ks0 : List Addr) (f1 f2 : Addr) : List Addr × Addr :=
  match ks0.head? with
  | some address =>
    let ks1 := ks0
    let ks2 := if ks1.length < 2 then ks1 ++ [f2] else ks1
    (ks2, address)
  | none =>
    let ks1 := ks0 ++ [f1]
    let ks2 := if ks1.length < 2 then ks1 ++ [f2] else ks1
    (ks2, f1)

/-- Function `retrieve_wallet` (src/utils/wallet.rs lines 16-63) at the level the
claims need: the final keystore address list and the saved client config,
whose `active_address` is set to the computed default active address. -/
def retrieve_wallet (ks0 : List Addr) (f1 f2 : Addr) :
    List Addr × SuiClientConfig :=
  let (ks2, default_active_address) := retrieve_wallet_core ks0 f1 f2
  (ks2, ⟨some default_active_address⟩)

/-- The external-call outcomes a `setup_for_read` / `setup_for_write` run
observes: the testnet client build, the coin stream `fetch_coin` reads for
the active address, and the faucet request. -/
structure SetupNet (ε : Type) where
  build_testnet : Except ε Unit
  coins_active : Except ε (List Coin)
  faucet : Except ε Unit

/-- Function `setup_for_read` (src/utils/wallet.rs lines 85-94): build the client,
run `retrieve_wallet`, assert at least two addresses, return the keystore
state and the active address. -/
def setup_for_read {ε : Type} (net : SetupNet ε) (ks0 : List Addr)
    (f1 f2 : Addr) : Except (PipeErr ε) (List Addr × Addr) :=
  match net.build_testnet with
  | .error e => .error (.net e)
  | .ok _ =>
    let (ks1, config) := retrieve_wallet ks0 f1 f2
    if ks1.length < 2 then
      .error (.panicMsg "assertion failed: wallet.get_addresses().len() >= 2")
    else
      match config.active_address with
      | some active_address => .ok (ks1, active_address)
      | none => .error (.localErr "no active address")

/-- The tail of `setup_for_write` (src/utils/wallet.rs lines 72-82) after
the funding check: re-run `retrieve_wallet` and pick the first address
different from the active one as recipient; `expect` panics when there is
none.  `faucetCalls` is carried through unchanged. -/
def setup_for_write_rest {ε : Type} (ks1 : List Addr) (active_address : Addr)
    (f3 f4 : Addr) (faucetCalls : Nat) :
    Except (PipeErr ε) (Addr × Addr) × Nat :=
  let ks2 := (retrieve_wallet ks1 f3 f4).1
  let addresses := ks2.filter (fun address => address ≠ active_address)
  match addresses.head? with
  | some recipient => (.ok (active_address, recipient), faucetCalls)
  | none =>
    (.error (.panicMsg
      "Cannot get the recipient address needed for writing operations. Aborting"),
     faucetCalls)

/-- Function `setup_for_write` (src/utils/wallet.rs lines 65-83): `setup_for_read`,
then `fetch_coin` on the active address with a single faucet request as
fallback when it finds nothing, then `retrieve_wallet` again (fresh supply
`f3`/`f4`) and the first address different from the active one as recipient.
The second component counts the faucet requests issued along the executed
path. -/
def setup_for_write {ε : Type} (net : SetupNet ε) (ks0 : List Addr)
    (f1 f2 f3 f4 : Addr) : Except (PipeErr ε) (Addr × Addr) × Nat :=
  match setup_for_read net ks0 f1 f2 with
  | .error e => (.error e, 0)
  | .ok (ks1, active_address) =>
    match net.coins_active with
    | .error e => (.error (.net e), 0)
    | .ok coins =>
      match fetch_coin coins with
      | some _ => setup_for_write_rest ks1 active_address f3 f4 0
      | none =>
        match net.faucet with
        | .error e => (.error (.net e), 1)
        | .ok _ => setup_for_write_rest ks1 active_address f3 f4 1

/-- The external-call outcomes a `split_coin_digest` run observes: the coin
stream of the first `fetch_coin`, the faucet request, the coin stream of the
re-query, the reference gas price, the keystore signing step and the
quorum-driver submission (returning the transaction digest). -/
structure SplitNet (ε : Type) where
  coins1 : Except ε (List Coin)
  faucet : Except ε Unit
  coins2 : Except ε (List Coin)
  gas_price : Except ε Nat
  sign : Except ε Nat
  submit : Except ε Nat

/-- The coin acquisition of `split_coin_digest` (src/utils/transaction.rs
lines 40-48): `fetch_coin`, and on `None` one faucet request followed by a
re-query whose `None` is turned into a panic by `expect`.  The second
component counts the faucet requests issued along the executed path. -/
def acquire_coin {ε : Type} (net : SplitNet ε) : Except (PipeErr ε) Coin × Nat :=
  match net.coins1 with
  | .error e => (.error (.net e), 0)
  | .ok s1 =>
    match fetch_coin s1 with
    | some c => (.ok c, 0)
    | none =>
      match net.faucet with
      | .error e => (.error (.net e), 1)
      | .ok _ =>
        match net.coins2 with
        | .error e => (.error (.net e), 1)
        | .ok s2 =>
          match fetch_coin s2 with
          | some c => (.ok c, 1)
          | none =>
            (.error (.panicMsg
              "Supposed to get a coin with SUI, but did not. Aborting"), 1)

/-- Function `split_coin_digest` (src/utils/transaction.rs lines 36-104): acquire a
coin, read the gas price, build `split_coin_build`, sign, submit, return the
digest.  The second component counts the faucet requests issued. -/
def split_coin_digest {ε : Type} (net : SplitNet ε) (sender : Addr) :
    Except (PipeErr ε) Nat × Nat :=
  match acquire_coin net with
  | (.error e, n) => (.error e, n)
  | (.ok coin, n) =>
    match net.gas_price with
    | .error e => (.error (.net e), n)
    | .ok gas_price =>
      let _tx_data := split_coin_build sender coin gas_price
      match net.sign with
      | .error e => (.error (.net e), n)
      | .ok _signature =>
        match net.submit with
        | .error e => (.error (.net e), n)
        | .ok digest => (.ok digest, n)

/-- The external-call outcomes an `input_objects.rs` main run observes
beyond `setup_for_write`: the `get_coins` page, the counter-object lookup,
the reference gas price, signing and submission. -/
structure InputObjectsNet (ε : Type) where
  setup : SetupNet ε
  coins_page : Except ε (List Coin)
  object_response : Except ε SuiObjectResponse
  gas_price : Except ε Nat
  sign : Except ε Nat
  submit : Except ε Nat

/-- The `input_objects.rs` main (lines 42-133): `setup_for_write`, first coin of
`get_coins` (`unwrap` panics on an empty page), the shared-object lookup and
version extraction, the build of `input_objects_build`, signing and
submission.  The second component counts the faucet requests issued. -/
def input_objects_main {ε : Type} (net : InputObjectsNet ε) (ks0 : List Addr)
    (f1 f2 f3 f4 : Addr) : Except (PipeErr ε) Nat × Nat :=
  match setup_for_write net.setup ks0 f1 f2 f3 f4 with
  | (.error e, n) => (.error e, n)
  | (.ok (sender, _recipient), n) =>
    match net.coins_page with
    | .error e => (.error (.net e), n)
    | .ok page =>
      match page.head? with
      | none => (.error (.panicMsg "called unwrap on a None value"), n)
      | some coin =>
        match net.object_response with
        | .error e => (.error (.net e), n)
        | .ok resp =>
          match extract_initial_shared_version resp with
          | .error msg => (.error (.localErr msg), n)
          | .ok initial_shared_version =>
            match net.gas_price with
            | .error e => (.error (.net e), n)
            | .ok gas_price =>
              let _tx_data :=
                input_objects_build sender coin initial_shared_version gas_price
              match net.sign with
              | .error e => (.error (.net e), n)
              | .ok _signature =>
                match net.submit with
                | .error e => (.error (.net e), n)
                | .ok digest => (.ok digest, n)

/-- Example nets used by the concrete witnesses: a run whose address owns no
qualifying coin before or after the faucet request, and a run whose address
owns a coin of balance 6_000_000. -/
def splitNetNoFunds : SplitNet Unit :=
  ⟨.ok [⟨1, 0, 0, 1000⟩], .ok (), .ok [], .ok 1000, .ok 0, .ok 0⟩

def splitNetRich : SplitNet Unit :=
  ⟨.ok [⟨1, 0, 0, 6000000⟩], .ok (), .ok [], .ok 1000, .ok 0, .ok 0⟩

def setupNetRich : SetupNet Unit :=
  ⟨.ok (), .ok [⟨9, 0, 0, 6000000⟩], .ok ()⟩

def setupNetPoor : SetupNet Unit :=
  ⟨.ok (), .ok [], .ok ()⟩

/-- C3. The coin acquisition of `split_coin_digest` never hands back a
non-qualifying coin: every coin it returns has balance at least 5_000_000
MIST; and when the address has zero qualifying coins both before and after
the faucet request, the run ends in the insufficient-funds failure (the
`expect` abort) rather than returning a coin. -/
theorem coin_acquisition_safe {ε : Type} (net : SplitNet ε) :
    (∀ c n, acquire_coin net = (.ok c, n) → 5000000 ≤ c.balance) ∧
    (∀ s1 s2, net.coins1 = .ok s1 → (∀ x ∈ s1, x.balance < 5000000) →
      net.faucet = .ok () → net.coins2 = .ok s2 →
      (∀ x ∈ s2, x.balance < 5000000) →
      acquire_coin net =
        (.error (.panicMsg
          "Supposed to get a coin with SUI, but did not. Aborting"), 1)) := by
  constructor
  · intro c n h
    rcases h1 : net.coins1 with e | s1
    · simp [acquire_coin, h1] at h
    · rcases h2 : fetch_coin s1 with _ | c1
      · rcases h3 : net.faucet with e | u
        · simp [acquire_coin, h1, h2, h3] at h
        · rcases h4 : net.coins2 with e | s2
          · simp [acquire_coin, h1, h2, h3, h4] at h
          · rcases h5 : fetch_coin s2 with _ | c2
            · simp [acquire_coin, h1, h2, h3, h4, h5] at h
            · have hc : c2 = c ∧ 1 = n := by
                simpa [acquire_coin, h1, h2, h3, h4, h5] using h
              exact hc.1 ▸ fetch_coin_qualifies s2 c2 h5
      · have hc : c1 = c ∧ 0 = n := by
          simpa [acquire_coin, h1, h2] using h
        exact hc.1 ▸ fetch_coin_qualifies s1 c1 h2
  · intro s1 s2 h1 hs1 h3 h4 hs2
    simp [acquire_coin, h1, fetch_coin_none_of_all_below s1 hs1, h3, h4,
      fetch_coin_none_of_all_below s2 hs2]

/-- Witness for C3: on the no-funds run the acquisition aborts with the
insufficient-funds failure, and on the rich run the returned coin's balance
qualifies. -/
theorem coin_acquisition_safe_witness :
    acquire_coin splitNetNoFunds =
      (.error (.panicMsg
        "Supposed to get a coin with SUI, but did not. Aborting"), 1) ∧
    5000000 ≤ (⟨1, 0, 0, 6000000⟩ : Coin).balance := by
  constructor
  · exact (coin_acquisition_safe splitNetNoFunds).2 [⟨1, 0, 0, 1000⟩] []
      rfl (by decide) rfl rfl (by decide)
  · exact (coin_acquisition_safe splitNetRich).1 ⟨1, 0, 0, 6000000⟩ 0 (by decide)

/-- C7. After `retrieve_wallet` returns, the keystore holds at least two
addresses (new keys having been generated as needed), and the saved client
configuration's active address is the first address of the keystore. -/
theorem retrieve_wallet_two_keys_active_first (ks0 : List Addr) (f1 f2 : Addr) :
    2 ≤ (retrieve_wallet ks0 f1 f2).1.length ∧
    (retrieve_wallet ks0 f1 f2).2.active_address =
      (retrieve_wallet ks0 f1 f2).1.head? := by
  cases ks0 with
  | nil => simp [retrieve_wallet, retrieve_wallet_core]
  | cons a t =>
    cases t with
    | nil => simp [retrieve_wallet, retrieve_wallet_core]
    | cons b t2 =>
      have h2 : ¬ t2.length + 1 + 1 < 2 := by omega
      constructor
      · have he : (retrieve_wallet (a :: b :: t2) f1 f2).1 = a :: b :: t2 := by
          simp [retrieve_wallet, retrieve_wallet_core, h2]
        rw [he]
        simp only [List.length_cons]
        omega
      · simp [retrieve_wallet, retrieve_wallet_core, h2]

/-- The head of a filtered list satisfies the filter predicate. -/
theorem head?_filter_prop {α : Type} (p : α → Bool) (l : List α) (x : α)
    (h : (l.filter p).head? = some x) : p x = true := by
  induction l with
  | nil => cases h
  | cons a t ih =>
    cases hp : p a with
    | true =>
      rw [List.filter_cons, hp] at h
      simp only [if_pos] at h
      injection h with h
      rw [← h]
      exact hp
    | false =>
      rw [List.filter_cons, hp] at h
      simp only [Bool.false_eq_true, if_neg, not_false_eq_true] at h
      exact ih h

/-- A successful `setup_for_write_rest` returns the active address it was
given together with a recipient different from it. -/
theorem setup_for_write_rest_ok {ε : Type} (ks1 : List Addr)
    (active f3 f4 : Addr) (k : Nat) (active2 recipient : Addr) (n : Nat)
    (h : setup_for_write_rest (ε := ε) ks1 active f3 f4 k =
      (.ok (active2, recipient), n)) :
    active2 = active ∧ recipient ≠ active := by
  rcases hh : ((retrieve_wallet ks1 f3 f4).1.filter
      (fun address => address ≠ active)).head? with _ | r
  · simp only [setup_for_write_rest] at h
    rw [hh] at h
    simp at h
  · simp only [setup_for_write_rest] at h
    rw [hh] at h
    have h' : (active = active2 ∧ r = recipient) ∧ k = n := by
      simpa using h
    have hp := head?_filter_prop (fun address => address ≠ active)
      (retrieve_wallet ks1 f3 f4).1 r hh
    have hr : r ≠ active := of_decide_eq_true hp
    exact ⟨h'.1.1.symm, h'.1.2 ▸ hr⟩

/-- Function `setup_for_write_rest` never issues a faucet request: its counter is the
one it was handed. -/
theorem setup_for_write_rest_count {ε : Type} (ks1 : List Addr)
    (active f3 f4 : Addr) (k : Nat) :
    (setup_for_write_rest (ε := ε) ks1 active f3 f4 k).2 = k := by
  rcases hh : ((retrieve_wallet ks1 f3 f4).1.filter
      (fun address => address ≠ active)).head? with _ | r <;>
    · simp only [setup_for_write_rest]
      rw [hh]

/-- C10. A normal return of `setup_for_write` always carries a recipient
address different from the sender (active) address; and when the re-read
wallet holds no address other than the active one, the recipient selection
aborts instead of returning normally. -/
theorem setup_for_write_distinct_recipient {ε : Type} (net : SetupNet ε)
    (ks0 : List Addr) (f1 f2 f3 f4 : Addr) :
    (∀ active recipient n,
      setup_for_write net ks0 f1 f2 f3 f4 = (.ok (active, recipient), n) →
      recipient ≠ active) ∧
    (∀ ks1 active k, (∀ x ∈ (retrieve_wallet ks1 f3 f4).1, x = active) →
      (setup_for_write_rest (ε := ε) ks1 active f3 f4 k).1 =
        .error (.panicMsg
          "Cannot get the recipient address needed for writing operations. Aborting")) := by
  constructor
  · intro active recipient n h
    rcases hr : setup_for_read net ks0 f1 f2 with e | p
    · simp [setup_for_write, hr] at h
    · obtain ⟨ks1, act⟩ := p
      rcases hc : net.coins_active with e | coins
      · simp [setup_for_write, hr, hc] at h
      · rcases hf : fetch_coin coins with _ | c
        · rcases hfa : net.faucet with e | u
          · simp [setup_for_write, hr, hc, hf, hfa] at h
          · have h' : setup_for_write_rest (ε := ε) ks1 act f3 f4 1 =
                (.ok (active, recipient), n) := by
              simpa only [setup_for_write, hr, hc, hf, hfa] using h
            have := setup_for_write_rest_ok ks1 act f3 f4 1 active recipient n h'
            rw [this.1]
            exact this.2
        · have h' : setup_for_write_rest (ε := ε) ks1 act f3 f4 0 =
              (.ok (active, recipient), n) := by
            simpa only [setup_for_write, hr, hc, hf] using h
          have := setup_for_write_rest_ok ks1 act f3 f4 0 active recipient n h'
          rw [this.1]
          exact this.2
  · intro ks1 active k hall
    have hfil : (retrieve_wallet ks1 f3 f4).1.filter
        (fun address => address ≠ active) = [] := by
      rw [List.filter_eq_nil_iff]
      intro a ha
      simp [hall a ha]
    simp only [setup_for_write_rest]
    rw [hfil]
    rfl

/-- Witness for C10: on a wallet with addresses `[1, 2]` and a funded active
address the run returns recipient `2 ≠ 1`; on a wallet whose addresses are
all the active address the recipient selection aborts. -/
theorem setup_for_write_distinct_recipient_witness :
    (2 : Addr) ≠ 1 ∧
    (setup_for_write_rest (ε := Unit) [0, 0] 0 0 0 0).1 =
      .error (.panicMsg
        "Cannot get the recipient address needed for writing operations. Aborting") := by
  constructor
  · exact (setup_for_write_distinct_recipient setupNetRich [1, 2] 0 0 0 0).1
      1 2 0 (by decide)
  · exact (setup_for_write_distinct_recipient setupNetRich [1, 2] 0 0 0 0).2
      [0, 0] 0 0 (by decide)

/-- The faucet counter of `acquire_coin` is at most one, and reaches one only
when the first `fetch_coin` lookup found no qualifying coin. -/
theorem acquire_coin_count {ε : Type} (net : SplitNet ε) :
    (acquire_coin net).2 ≤ 1 ∧
    ((acquire_coin net).2 = 1 →
      ∃ s1, net.coins1 = .ok s1 ∧ fetch_coin s1 = none) := by
  rcases h1 : net.coins1 with e | s1
  · constructor
    · simp [acquire_coin, h1]
    · simp [acquire_coin, h1]
  · rcases h2 : fetch_coin s1 with _ | c
    · constructor
      · rcases h3 : net.faucet with e | u
        · simp [acquire_coin, h1, h2, h3]
        · rcases h4 : net.coins2 with e | s2
          · simp [acquire_coin, h1, h2, h3, h4]
          · rcases h5 : fetch_coin s2 with _ | c2 <;>
              simp [acquire_coin, h1, h2, h3, h4, h5]
      · intro _
        exact ⟨s1, rfl, h2⟩
    · constructor
      · simp [acquire_coin, h1, h2]
      · simp [acquire_coin, h1, h2]

/-- Function `split_coin_digest` issues exactly the faucet requests of its coin
acquisition. -/
theorem split_coin_digest_count {ε : Type} (net : SplitNet ε) (sender : Addr) :
    (split_coin_digest net sender).2 = (acquire_coin net).2 := by
  unfold split_coin_digest
  rcases ha : acquire_coin net with ⟨r, n⟩
  cases r with
  | error e => simp
  | ok coin =>
    rcases hg : net.gas_price with e | gp
    · simp [hg]
    · rcases hs : net.sign with e | sg
      · simp [hg, hs]
      · rcases hb : net.submit with e | d <;> simp [hg, hs, hb]

/-- C8. In a single run, at most one funding request is issued to the
faucet, and one is issued only when the preceding coin lookup found no
qualifying coin — both for `setup_for_write` and for `split_coin_digest`;
there is no retry loop. -/
theorem at_most_one_faucet_request {ε : Type} (net : SetupNet ε)
    (snet : SplitNet ε) (ks0 : List Addr) (f1 f2 f3 f4 sender : Addr) :
    (setup_for_write net ks0 f1 f2 f3 f4).2 ≤ 1 ∧
    ((setup_for_write net ks0 f1 f2 f3 f4).2 = 1 →
      ∃ coins, net.coins_active = .ok coins ∧ fetch_coin coins = none) ∧
    (split_coin_digest snet sender).2 ≤ 1 ∧
    ((split_coin_digest snet sender).2 = 1 →
      ∃ s1, snet.coins1 = .ok s1 ∧ fetch_coin s1 = none) := by
  have hsplit := acquire_coin_count snet
  have hcnt := split_coin_digest_count snet sender
  refine ⟨?_, ?_, hcnt ▸ hsplit.1, fun h => hsplit.2 (hcnt ▸ h)⟩
  · rcases hr : setup_for_read net ks0 f1 f2 with e | p
    · simp [setup_for_write, hr]
    · obtain ⟨ks1, act⟩ := p
      rcases hc : net.coins_active with e | coins
      · simp [setup_for_write, hr, hc]
      · rcases hf : fetch_coin coins with _ | c
        · rcases hfa : net.faucet with e | u
          · simp [setup_for_write, hr, hc, hf, hfa]
          · simp [setup_for_write, hr, hc, hf, hfa, setup_for_write_rest_count]
        · simp [setup_for_write, hr, hc, hf, setup_for_write_rest_count]
  · intro h
    rcases hr : setup_for_read net ks0 f1 f2 with e | p
    · simp [setup_for_write, hr] at h
    · obtain ⟨ks1, act⟩ := p
      rcases hc : net.coins_active with e | coins
      · simp [setup_for_write, hr, hc] at h
      · rcases hf : fetch_coin coins with _ | c
        · exact ⟨coins, rfl, hf⟩
        · simp [setup_for_write, hr, hc, hf, setup_for_write_rest_count] at h

/-- Witness for C8 on the concrete no-funds and rich runs. -/
theorem at_most_one_faucet_request_witness :
    (setup_for_write setupNetPoor [1, 2] 0 0 0 0).2 ≤ 1 ∧
    (∃ coins, setupNetPoor.coins_active = .ok coins ∧ fetch_coin coins = none) ∧
    (split_coin_digest splitNetNoFunds 1).2 ≤ 1 ∧
    (∃ s1, splitNetNoFunds.coins1 = .ok s1 ∧ fetch_coin s1 = none) := by
  have h := at_most_one_faucet_request setupNetPoor splitNetNoFunds [1, 2] 0 0 0 0 1
  exact ⟨h.1, h.2.1 (by decide), h.2.2.1, h.2.2.2 (by decide)⟩

/-- C5. The initial-shared-version used for a shared-object input comes from
the explicit network object lookup: the extraction succeeds with `v` exactly
when the looked-up object's owner is `Shared v`; the built transaction's
shared input carries exactly that `v`; and a response whose data or owner is
absent, or whose owner is not `Shared`, yields an error instead of a
defaulted version. -/
theorem shared_object_version_from_lookup (resp : SuiObjectResponse)
    (sender : Addr) (coin : Coin) (v gas_price : Nat) :
    (extract_initial_shared_version resp = .ok v ↔
      ∃ d, resp.data = some d ∧ d.owner = some (Owner.Shared v)) ∧
    (input_objects_build sender coin v gas_price).pt.inputs =
      [CallArg.Object (ObjectArg.SharedObject COUNTER_OBJ_ID v true)] ∧
    ((¬ ∃ d, resp.data = some d ∧ ∃ w, d.owner = some (Owner.Shared w)) →
      ∃ msg, extract_initial_shared_version resp = .error msg) := by
  refine ⟨⟨?_, ?_⟩, rfl, ?_⟩
  · intro h
    rcases hd : resp.data with _ | d
    · simp [extract_initial_shared_version, hd] at h
    · rcases ho : d.owner with _ | o
      · simp [extract_initial_shared_version, hd, ho] at h
      · cases o with
        | Shared w =>
          have hw : w = v := by
            simpa [extract_initial_shared_version, hd, ho] using h
          exact ⟨d, rfl, by rw [ho, hw]⟩
        | AddressOwner a => simp [extract_initial_shared_version, hd, ho] at h
        | ObjectOwner a => simp [extract_initial_shared_version, hd, ho] at h
        | Immutable => simp [extract_initial_shared_version, hd, ho] at h
  · rintro ⟨d, hd, ho⟩
    simp [extract_initial_shared_version, hd, ho]
  · intro hno
    rcases hd : resp.data with _ | d
    · exact ⟨"Object data not found", by
        simp [extract_initial_shared_version, hd]⟩
    · rcases ho : d.owner with _ | o
      · exact ⟨"Object owner information not found", by
          simp [extract_initial_shared_version, hd, ho]⟩
      · cases o with
        | Shared w => exact absurd ⟨d, hd, w, ho⟩ hno
        | AddressOwner a => exact ⟨"Object is not shared", by
            simp [extract_initial_shared_version, hd, ho]⟩
        | ObjectOwner a => exact ⟨"Object is not shared", by
            simp [extract_initial_shared_version, hd, ho]⟩
        | Immutable => exact ⟨"Object is not shared", by
            simp [extract_initial_shared_version, hd, ho]⟩

/-- Witness for C5: a shared owner with version 42 extracts to 42 and is
embedded verbatim in the built transaction's input list; a non-shared owner
is rejected with an error. -/
theorem shared_object_version_from_lookup_witness :
    extract_initial_shared_version ⟨some ⟨some (Owner.Shared 42)⟩⟩ = .ok 42 ∧
    (input_objects_build 1 ⟨9, 0, 0, 6000000⟩ 42 1000).pt.inputs =
      [CallArg.Object (ObjectArg.SharedObject COUNTER_OBJ_ID 42 true)] ∧
    ∃ msg, extract_initial_shared_version ⟨some ⟨some (Owner.AddressOwner 1)⟩⟩ =
      .error msg := by
  have h1 := shared_object_version_from_lookup ⟨some ⟨some (Owner.Shared 42)⟩⟩
    1 ⟨9, 0, 0, 6000000⟩ 42 1000
  have h2 := shared_object_version_from_lookup ⟨some ⟨some (Owner.AddressOwner 1)⟩⟩
    1 ⟨9, 0, 0, 6000000⟩ 42 1000
  refine ⟨h1.1.mpr ⟨⟨some (Owner.Shared 42)⟩, rfl, rfl⟩, h1.2.1, h2.2.2 ?_⟩
  rintro ⟨d, hd, w, hw⟩
  injection hd with hd
  subst hd
  injection hw with hw
  injection hw

/-- C9 counterexample: the transaction built by `split_coin_digest` carries
the gas budget 5_000_000 (`max_gas_budget` in src/utils/transaction.rs line
56), not 10_000_000 — so not every transaction built by the programs uses
the 10_000_000 budget. -/
theorem gas_budget_not_uniform :
    (split_coin_build 0 ⟨0, 0, 0, 6000000⟩ 1000).gas_budget = 5000000 ∧
    (5000000 : Nat) ≠ 10000000 :=
  ⟨rfl, by decide⟩

/-- C9 (amended). The coin locator's threshold is the hardcoded constant
5_000_000 MIST (a balance of 4_999_999 is skipped, 5_000_000 accepted); the
bin programs `input_objects.rs` and `return_objects.rs` attach the hardcoded
gas budget 10_000_000, while `split_coin_digest` attaches its hardcoded
`max_gas_budget` of 5_000_000. -/
theorem gas_constants (sender recipient : Addr) (coin : Coin)
    (v gas_price : Nat) (coins : List Coin) (c : Coin) :
    (fetch_coin coins = some c → 5000000 ≤ c.balance) ∧
    ((∀ x ∈ coins, x.balance < 5000000) → fetch_coin coins = none) ∧
    fetch_coin [⟨0, 0, 0, 4999999⟩] = none ∧
    fetch_coin [⟨0, 0, 0, 5000000⟩] = some ⟨0, 0, 0, 5000000⟩ ∧
    (input_objects_build sender coin v gas_price).gas_budget = 10000000 ∧
    (return_objects_build sender recipient coin gas_price).gas_budget = 10000000 ∧
    (split_coin_build sender coin gas_price).gas_budget = 5000000 :=
  ⟨fetch_coin_qualifies coins c, fetch_coin_none_of_all_below coins,
   by decide, by decide, rfl, rfl, rfl⟩

/-- Witness for C9 (amended) at concrete streams and builds. -/
theorem gas_constants_witness :
    5000000 ≤ (⟨9, 0, 0, 6000000⟩ : Coin).balance ∧
    fetch_coin [⟨9, 0, 0, 1000⟩] = none ∧
    (input_objects_build 1 ⟨9, 0, 0, 6000000⟩ 42 1000).gas_budget = 10000000 := by
  have h1 := gas_constants 1 2 ⟨9, 0, 0, 6000000⟩ 42 1000
    [⟨9, 0, 0, 6000000⟩] ⟨9, 0, 0, 6000000⟩
  have h2 := gas_constants 1 2 ⟨9, 0, 0, 6000000⟩ 42 1000
    [⟨9, 0, 0, 1000⟩] ⟨9, 0, 0, 6000000⟩
  exact ⟨h1.1 (by decide), h2.2.1 (by decide), h1.2.2.2.2.1⟩

/-- C4. Failures of the pipeline stages — coin lookup, faucet request, the
build-stage shared-version rejection, signing, submission — are propagated
upward unchanged: the stage's own error value (or the locally created build
error) becomes the run's result, with no recovery, retry or rollback. -/
theorem failures_propagate_unchanged {ε : Type} (net : InputObjectsNet ε)
    (snet : SplitNet ε) (ks0 : List Addr) (f1 f2 f3 f4 sender : Addr) :
    (∀ ks1 act e, setup_for_read net.setup ks0 f1 f2 = .ok (ks1, act) →
      net.setup.coins_active = .error e →
      setup_for_write net.setup ks0 f1 f2 f3 f4 = (.error (.net e), 0)) ∧
    (∀ ks1 act coins e, setup_for_read net.setup ks0 f1 f2 = .ok (ks1, act) →
      net.setup.coins_active = .ok coins → fetch_coin coins = none →
      net.setup.faucet = .error e →
      setup_for_write net.setup ks0 f1 f2 f3 f4 = (.error (.net e), 1)) ∧
    (∀ e n, setup_for_write net.setup ks0 f1 f2 f3 f4 = (.error e, n) →
      input_objects_main net ks0 f1 f2 f3 f4 = (.error e, n)) ∧
    (∀ s r n page coin resp msg,
      setup_for_write net.setup ks0 f1 f2 f3 f4 = (.ok (s, r), n) →
      net.coins_page = .ok page → page.head? = some coin →
      net.object_response = .ok resp →
      extract_initial_shared_version resp = .error msg →
      input_objects_main net ks0 f1 f2 f3 f4 = (.error (.localErr msg), n)) ∧
    (∀ s r n page coin resp v gp e,
      setup_for_write net.setup ks0 f1 f2 f3 f4 = (.ok (s, r), n) →
      net.coins_page = .ok page → page.head? = some coin →
      net.object_response = .ok resp →
      extract_initial_shared_version resp = .ok v →
      net.gas_price = .ok gp → net.sign = .error e →
      input_objects_main net ks0 f1 f2 f3 f4 = (.error (.net e), n)) ∧
    (∀ s r n page coin resp v gp sg e,
      setup_for_write net.setup ks0 f1 f2 f3 f4 = (.ok (s, r), n) →
      net.coins_page = .ok page → page.head? = some coin →
      net.object_response = .ok resp →
      extract_initial_shared_version resp = .ok v →
      net.gas_price = .ok gp → net.sign = .ok sg → net.submit = .error e →
      input_objects_main net ks0 f1 f2 f3 f4 = (.error (.net e), n)) ∧
    (∀ e, snet.coins1 = .error e →
      split_coin_digest snet sender = (.error (.net e), 0)) ∧
    (∀ s1 e, snet.coins1 = .ok s1 → fetch_coin s1 = none →
      snet.faucet = .error e →
      split_coin_digest snet sender = (.error (.net e), 1)) := by
  refine ⟨?_, ?_, ?_, ?_, ?_, ?_, ?_, ?_⟩
  · intro ks1 act e h1 h2
    simp [setup_for_write, h1, h2]
  · intro ks1 act coins e h1 h2 h3 h4
    simp [setup_for_write, h1, h2, h3, h4]
  · intro e n h
    simp [input_objects_main, h]
  · intro s r n page coin resp msg hsw hp hh hr hx
    simp [input_objects_main, hsw, hp, hh, hr, hx]
  · intro s r n page coin resp v gp e hsw hp hh hr hx hg hs
    simp [input_objects_main, hsw, hp, hh, hr, hx, hg, hs]
  · intro s r n page coin resp v gp sg e hsw hp hh hr hx hg hs hb
    simp [input_objects_main, hsw, hp, hh, hr, hx, hg, hs, hb]
  · intro e h
    simp [split_coin_digest, acquire_coin, h]
  · intro s1 e h1 h2 h3
    simp [split_coin_digest, acquire_coin, h1, h2, h3]

/-- Example nets over error type `Nat` for the propagation witnesses. -/
def ioNetErrCoins : InputObjectsNet Nat :=
  ⟨⟨.ok (), .error 3, .ok ()⟩, .ok [⟨9, 0, 0, 6000000⟩],
   .ok ⟨some ⟨some (Owner.Shared 42)⟩⟩, .ok 1000, .ok 5, .ok 6⟩

def ioNetBadObject : InputObjectsNet Nat :=
  ⟨⟨.ok (), .ok [⟨9, 0, 0, 6000000⟩], .ok ()⟩, .ok [⟨9, 0, 0, 6000000⟩],
   .ok ⟨some ⟨some (Owner.AddressOwner 1)⟩⟩, .ok 1000, .ok 5, .ok 6⟩

def splitNetErrLookup : SplitNet Nat :=
  ⟨.error 7, .ok (), .ok [], .ok 1000, .ok 5, .ok 6⟩

/-- Witness for C4: a coin-lookup error value 3 surfaces as the run's error,
the non-shared object rejection surfaces as the build error message, and a
lookup error value 7 surfaces unchanged from `split_coin_digest`. -/
theorem failures_propagate_unchanged_witness :
    setup_for_write ioNetErrCoins.setup [1, 2] 0 0 0 0 = (.error (.net 3), 0) ∧
    input_objects_main ioNetBadObject [1, 2] 0 0 0 0 =
      (.error (.localErr "Object is not shared"), 0) ∧
    split_coin_digest splitNetErrLookup 1 = (.error (.net 7), 0) := by
  have hA := failures_propagate_unchanged ioNetErrCoins splitNetErrLookup
    [1, 2] 0 0 0 0 1
  have hB := failures_propagate_unchanged ioNetBadObject splitNetErrLookup
    [1, 2] 0 0 0 0 1
  refine ⟨hA.1 [1, 2] 1 3 (by decide) rfl, ?_, hA.2.2.2.2.2.2.1 7 rfl⟩
  exact hB.2.2.2.1 1 2 0 [⟨9, 0, 0, 6000000⟩] ⟨9, 0, 0, 6000000⟩
    ⟨some ⟨some (Owner.AddressOwner 1)⟩⟩ "Object is not shared"
    (by decide) rfl rfl rfl (by decide)

end Workshop
